import Mathlib

/-!
Verification of the `style-guide` repository (src/styleguide.js) against its
natural-language specification.

The repository ships a single declarative ruleset (a Spectral-style API style
guide).  The rule records below are transliterated field by field from
`src/styleguide.js`; the evaluation engine that executes such rulesets is not
part of the repository, so it is modelled from the specification (each such
definition carries a doc comment starting with "Modelled from the spec:").
-/

/- Document trees: an arbitrary tree of maps (objects), ordered sequences
(arrays) and scalars, exactly the value universe of the JS/YAML documents the
ruleset is written against.  Mutual inductives are used so that all recursion
over documents is structural. -/
mutual
inductive Json where
  | null : Json
  | bool (b : Bool) : Json
  | str (s : String) : Json
  | num (n : Int) : Json
  | arr (xs : JsonList) : Json
  | obj (fs : JsonFields) : Json
inductive JsonList where
  | nil : JsonList
  | cons (hd : Json) (tl : JsonList) : JsonList
inductive JsonFields where
  | nil : JsonFields
  | cons (k : String) (v : Json) (tl : JsonFields) : JsonFields
end

/-- Build a `JsonList` from a Lean list (literal convenience only). -/
def jlist (xs : List Json) : JsonList :=
  xs.foldr JsonList.cons JsonList.nil

/-- Build a `JsonFields` from a Lean association list (literal convenience only). -/
def jfields (fs : List (String × Json)) : JsonFields :=
  fs.foldr (fun kv acc => JsonFields.cons kv.1 kv.2 acc) JsonFields.nil

/-- Object literal helper. -/
def jobj (fs : List (String × Json)) : Json :=
  Json.obj (jfields fs)

/-- Array literal helper. -/
def jarr (xs : List Json) : Json :=
  Json.arr (jlist xs)

/-- First value bound to key `k` in an object's field list (JS property lookup). -/
def fieldsLookup (k : String) : JsonFields → Option Json
  | .nil => none
  | .cons k' v rest => if k' = k then some v else fieldsLookup k rest

/-- Property access on a document node: `some` only on objects that carry the key. -/
def getField (v : Json) (k : String) : Option Json :=
  match v with
  | .obj fs => fieldsLookup k fs
  | _ => none

/-- Coercion of a matched value to text, as used by the text-based validation
functions; non-string nodes have no text and are skipped. -/
def toText : Json → Option String
  | .str s => some s
  | _ => none

/-- Modelled from the spec: the fixed falsy-value definition used by
`truthy`/`falsy` — absent is handled at the call site; here `null`, `false`,
zero and the empty string are falsy. -/
def falsyJson : Json → Bool
  | .null => true
  | .bool false => true
  | .num 0 => true
  | .str "" => true
  | _ => false

/- Structural equality of document values (used by the `const` schema keyword). -/
mutual
def jsonEq : Json → Json → Bool
  | .null, .null => true
  | .bool a, .bool b => a == b
  | .str a, .str b => a == b
  | .num a, .num b => a == b
  | .arr a, .arr b => jsonListEq a b
  | .obj a, .obj b => jsonFieldsEq a b
  | _, _ => false
def jsonListEq : JsonList → JsonList → Bool
  | .nil, .nil => true
  | .cons a as, .cons b bs => jsonEq a b && jsonListEq as bs
  | _, _ => false
def jsonFieldsEq : JsonFields → JsonFields → Bool
  | .nil, .nil => true
  | .cons k a as, .cons k' b bs => k == k' && jsonEq a b && jsonFieldsEq as bs
  | _, _ => false
end

/- Number of nodes of a document value; used only as a fuel bound for schema
conformance (the recursion there descends through `getField`, which the
structural termination checker cannot see through). -/
mutual
def jsize : Json → Nat
  | .null | .bool _ | .str _ | .num _ => 1
  | .arr xs => 1 + jlsize xs
  | .obj fs => 1 + jfsize fs
def jlsize : JsonList → Nat
  | .nil => 1
  | .cons x rest => 1 + jsize x + jlsize rest
def jfsize : JsonFields → Nat
  | .nil => 1
  | .cons _ v rest => 1 + jsize v + jfsize rest
end

/-- Length of a document array (used by the `maxItems` schema keyword). -/
def jlistLength : JsonList → Nat
  | .nil => 0
  | .cons _ rest => 1 + jlistLength rest

/-- Regular expressions over characters, with character classes given by a
decidable predicate.  This is the fragment needed by the `pattern` strings in
the shipped ruleset (classes, literals, concatenation, alternation, star). -/
inductive Regex where
  | emp : Regex
  | eps : Regex
  | cls (p : Char → Bool) : Regex
  | cat (a b : Regex) : Regex
  | alt (a b : Regex) : Regex
  | star (a : Regex) : Regex

/-- Whether a regex accepts the empty string. -/
def Regex.nullable : Regex → Bool
  | .emp => false
  | .eps => true
  | .cls _ => false
  | .cat a b => a.nullable && b.nullable
  | .alt a b => a.nullable || b.nullable
  | .star _ => true

/-- Brzozowski derivative of a regex by one character. -/
def Regex.deriv : Regex → Char → Regex
  | .emp, _ => .emp
  | .eps, _ => .emp
  | .cls p, c => if p c then .eps else .emp
  | .cat a b, c =>
    if a.nullable then .alt (.cat (a.deriv c) b) (b.deriv c) else .cat (a.deriv c) b
  | .alt a b, c => .alt (a.deriv c) (b.deriv c)
  | .star a, c => .cat (a.deriv c) (.star a)

/-- Whether some (possibly empty) prefix of the character list matches the regex. -/
def prefixAccepts : Regex → List Char → Bool
  | r, [] => r.nullable
  | r, c :: cs => r.nullable || prefixAccepts (r.deriv c) cs

/-- Whether the regex matches the whole character list. -/
def fullAccepts : Regex → List Char → Bool
  | r, [] => r.nullable
  | r, c :: cs => fullAccepts (r.deriv c) cs

/-- JS `RegExp.test` semantics for a pattern whose source starts with the `^`
anchor (all compiled patterns below are of this shape): the regex body — the
anchor stripped — must match some prefix of the string. -/
def testAnchored (r : Regex) (s : String) : Bool :=
  prefixAccepts r s.data

/-- Whole-string acceptance, i.e. the test the pattern would perform had it
carried both a `^` and a `$` anchor. -/
def fullAcceptsStr (r : Regex) (s : String) : Bool :=
  fullAccepts r s.data

/-- Character class `[A-Z]`. -/
def upperAZ : Char → Bool := fun c => decide ('A' ≤ c ∧ c ≤ 'Z')

/-- Character class `[a-z0-9]`. -/
def lowerDigit : Char → Bool :=
  fun c => decide (('a' ≤ c ∧ c ≤ 'z') ∨ ('0' ≤ c ∧ c ≤ '9'))

/-- Single-character literal class. -/
def chr (c : Char) : Regex := .cls (fun d => d == c)

/-- Literal string regex. -/
def litRegex (s : String) : Regex :=
  s.data.foldr (fun c acc => Regex.cat (chr c) acc) Regex.eps

/-- One-or-more repetition, `e+` desugared as `e e*`. -/
def plusRe (r : Regex) : Regex := .cat r (.star r)

/-- Body of the `headers-lowercase-case` match pattern
`/^([A-Z][a-z0-9]-)*([A-Z][a-z0-9])+/` with the leading `^` anchor stripped
(it is re-applied by `testAnchored`). -/
def headersCaseRegex : Regex :=
  .cat (.star (.cat (.cls upperAZ) (.cat (.cls lowerDigit) (chr '-'))))
    (plusRe (.cat (.cls upperAZ) (.cls lowerDigit)))

/-- Body of the `hosts-https-only-oas3` match pattern `/^https:/` with the
leading `^` anchor stripped. -/
def httpsRegex : Regex := litRegex "https:"

/-- Modelled from the spec: whether a document value has the named JSON-schema
primitive type. -/
def typeMatches (t : String) (v : Json) : Bool :=
  match t, v with
  | "object", .obj _ => true
  | "array", .arr _ => true
  | "string", .str _ => true
  | "boolean", .bool _ => true
  | "null", .null => true
  | "integer", .num _ => true
  | "number", .num _ => true
  | _, _ => false

/- Modelled from the spec: structural schema conformance supporting `type`,
`const`, `not` (negated sub-schema), nested `properties` matched by key, and —
for the array schema of `hosts-https-only-oas2` — `items` and `maxItems`.
Schemas are document values, exactly as they are written in the ruleset.  The
fuel argument only discharges termination: every recursive call descends into
a strict subterm of the schema, so `jsize` of the schema (used by `conforms`)
always suffices and the fuel is never exhausted. -/
mutual
def conformsF : Nat → Json → Json → Bool
  | 0, _, _ => true
  | fuel + 1, sch, v =>
    (match getField sch "type" with
     | some (.str t) => typeMatches t v
     | _ => true) &&
    (match getField sch "const" with
     | some c => jsonEq c v
     | none => true) &&
    (match getField sch "not" with
     | some sub => !(conformsF fuel sub v)
     | none => true) &&
    (match getField sch "properties" with
     | some (.obj props) => propsConformF fuel props v
     | _ => true) &&
    (match getField sch "items", v with
     | some sub, .arr xs => itemsConformF fuel sub xs
     | _, _ => true) &&
    (match getField sch "maxItems", v with
     | some (.num n), .arr xs => decide ((jlistLength xs : Int) ≤ n)
     | _, _ => true)
def propsConformF : Nat → JsonFields → Json → Bool
  | 0, _, _ => true
  | _ + 1, .nil, _ => true
  | fuel + 1, .cons k sub rest, v =>
    (match getField v k with
     | some fv => conformsF fuel sub fv
     | none => true) &&
    propsConformF fuel rest v
def itemsConformF : Nat → Json → JsonList → Bool
  | 0, _, _ => true
  | _ + 1, _, .nil => true
  | fuel + 1, sub, .cons x rest => conformsF fuel sub x && itemsConformF fuel sub rest
end

/-- Modelled from the spec: the `schema` validation function's conformance
check, with fuel instantiated large enough to be exact (see `conformsF`). -/
def conforms (sch v : Json) : Bool :=
  conformsF (jsize sch * (1 + jsize v)) sch v

/-- Modelled from the spec: the `schema` validation function returns a
violation exactly when the matched value does not conform to the configured
schema. -/
def schemaFnViolates (sch v : Json) : Bool :=
  !(conforms sch v)

/-- Format tags imported by the ruleset from the formats package (`oas2`, `oas3`). -/
inductive Format where
  | oas2 : Format
  | oas3 : Format
deriving DecidableEq

/-- The six validation functions imported by `src/styleguide.js` line 4:
`enumeration, truthy, falsy, undefined (as undefinedFunc), pattern, schema`. -/
inductive FuncName where
  | truthy : FuncName
  | falsy : FuncName
  | undefinedFunc : FuncName
  | pattern : FuncName
  | enumeration : FuncName
  | schema : FuncName
deriving DecidableEq

/-- The `functionOptions` bags appearing in the ruleset: allowed literal values
for `enumeration`, `match`/`notMatch` pattern sources for `pattern` (the field
`match` is spelled `match'` because `match` is reserved in Lean), and a schema
value for `schema`. -/
structure FuncOptions where
  values : Option (List String)
  match' : Option String
  notMatch : Option String
  schema : Option Json

/-- A single `then` object of a rule: optional target `field`, the validation
`function`, and its optional `functionOptions`. -/
structure ThenClause where
  field : Option String
  function : FuncName
  functionOptions : Option FuncOptions

/-- A rule's `then` is either a single clause or an ordered sequence of
clauses (the ruleset authoring schema of spec section 6 allows both shapes). -/
inductive ThenSpec where
  | one (c : ThenClause) : ThenSpec
  | many (cs : List ThenClause) : ThenSpec

/-- A rule record of the ruleset.  Fields spelled as in the source, except that
`then` and `type` are reserved in Lean and written `then'` / `type'`; a field a
given rule does not declare is `none`. -/
structure Rule where
  description : String
  message : Option String
  severity : Option String
  formats : Option (List Format)
  type' : Option String
  given : String
  then' : ThenSpec

/-- Rule `api-home` (src/styleguide.js lines 13-22). -/
def api_home : Rule :=
  { description := "APIs MUST have a root path (`/`) defined."
    message := some "Stop forcing all API consumers to visit documentation for basic interactions when the API could do that itself."
    severity := some "warn"
    formats := none
    type' := none
    given := "$.paths"
    then' := .one { field := some "/", function := .truthy, functionOptions := none } }

/-- Rule `api-home-get` (src/styleguide.js lines 23-32). -/
def api_home_get : Rule :=
  { description := "APIs root path (`/`) MUST have a GET operation."
    message := some "Otherwise people won\x27t know how to get it."
    severity := some "warn"
    formats := none
    type' := none
    given := "$.paths[/]"
    then' := .one { field := some "get", function := .truthy, functionOptions := none } }

/-- Rule `api-health` (src/styleguide.js lines 33-42). -/
def api_health : Rule :=
  { description := "APIs MUST have a health path (`/health`) defined."
    message := some "Creating a `/health` endpoint is a simple solution for pull-based monitoring and manually checking the status of an API."
    severity := some "error"
    formats := none
    type' := none
    given := "$.paths"
    then' := .one { field := some "/health", function := .truthy, functionOptions := none } }

/-- Rule `api-health-format` (src/styleguide.js lines 43-57). -/
def api_health_format : Rule :=
  { description := "Health path (`/heath`) SHOULD support Health Check Response Format\""
    message := some "Use existing standards (and draft standards) wherever possible, like the draft standard for health checks: https://datatracker.ietf.org/doc/html/draft-inadarei-api-health-check"
    severity := some "warn"
    formats := some [.oas3]
    type' := none
    given := "$.paths.[/health].responses[*].content.*~"
    then' := .one
      { field := none
        function := .enumeration
        functionOptions := some
          { values := some ["application/vnd.health+json"]
            match' := none, notMatch := none, schema := none } } }

/-- Rule `paths-kebab-case` (src/styleguide.js lines 58-69). -/
def paths_kebab_case : Rule :=
  { description := "Should paths be kebab-case."
    message := some "\x7b\x7bproperty\x7d\x7d should be kebab-case (lower case and separated with hyphens)"
    severity := some "warn"
    formats := none
    type' := none
    given := "$.paths[*]~"
    then' := .one
      { field := none
        function := .pattern
        functionOptions := some
          { values := none
            match' := some "^(/|[a-z0-9-.]+|\x7b[a-zA-Z0-9_]+\x7d)+$"
            notMatch := none, schema := none } } }

/-- The `functionOptions.schema` value of rule `no-numeric-ids`
(src/styleguide.js lines 76-92), written exactly as in the source. -/
def noNumericIdsSchema : Json :=
  jobj
    [("type", Json.str "object"),
     ("not", jobj [("properties", jobj [("type", jobj [("const", Json.str "integer")])])]),
     ("properties", jobj [("format", jobj [("const", Json.str "uuid")])])]

/-- Rule `no-numeric-ids` (src/styleguide.js lines 70-94); note it declares no
`message`. -/
def no_numeric_ids : Rule :=
  { description := "Please avoid exposing IDs as an integer, UUIDs are preferred."
    message := none
    severity := some "error"
    formats := none
    type' := none
    given := "$.paths..parameters[*].[?(@property === \"name\" && (@ === \"id\" || @.match(/(_id|Id)$/)))]^.schema"
    then' := .one
      { field := none
        function := .schema
        functionOptions := some
          { values := none, match' := none, notMatch := none
            schema := some noNumericIdsSchema } } }

/-- Rule `no-http-basic` (src/styleguide.js lines 95-107). -/
def no_http_basic : Rule :=
  { description := "Consider a more secure alternative to HTTP Basic."
    message := some "HTTP Basic is a pretty insecure way to pass credentials around, please consider an alternative."
    severity := some "error"
    formats := none
    type' := none
    given := "$.components.securitySchemes[*]"
    then' := .one
      { field := some "scheme"
        function := .pattern
        functionOptions := some
          { values := none, match' := none
            notMatch := some "basic", schema := none } } }

/-- Rule `no-x-headers` (src/styleguide.js lines 108-118); note it declares no
`severity`. -/
def no_x_headers : Rule :=
  { description := "Please do not use headers with X-"
    message := some "Headers cannot start with X-, so please find a new name for \x7b\x7bproperty\x7d\x7d. More: https://tools.ietf.org/html/rfc6648"
    severity := none
    formats := none
    type' := none
    given := "$..parameters.[?(@.in === \x27header\x27)].name"
    then' := .one
      { field := none
        function := .pattern
        functionOptions := some
          { values := none, match' := none
            notMatch := some "^(x|X)-", schema := none } } }

/-- Rule `no-x-response-headers` (src/styleguide.js lines 119-129); note it
declares no `severity`. -/
def no_x_response_headers : Rule :=
  { description := "Please do not use headers with X-"
    message := some "Headers cannot start with X-, so please find a new name for \x7b\x7bproperty\x7d\x7d. More: https://tools.ietf.org/html/rfc6648"
    severity := none
    formats := none
    type' := none
    given := "$..headers.*~"
    then' := .one
      { field := none
        function := .pattern
        functionOptions := some
          { values := none, match' := none
            notMatch := some "^(x|X)-", schema := none } } }

/-- Rule `request-GET-no-body-oas3` (src/styleguide.js lines 130-138); note it
declares no `message`. -/
def request_GET_no_body_oas3 : Rule :=
  { description := "A `GET` request MUST NOT accept a request body"
    message := none
    severity := some "error"
    formats := some [.oas3]
    type' := none
    given := "$.paths..get.requestBody"
    then' := .one { field := none, function := .undefinedFunc, functionOptions := none } }

/-- Rule `headers-lowercase-case` (src/styleguide.js lines 139-151). -/
def headers_lowercase_case : Rule :=
  { description := "All HTTP headers MUST use Hyphenated-Pascal-Case casing"
    message := some "HTTP headers have the first letter of each word capitalized, and each word should be seperated by a hyphen."
    severity := some "error"
    formats := none
    type' := some "style"
    given := "$..parameters[?(@.in == \x27header\x27)].name"
    then' := .one
      { field := none
        function := .pattern
        functionOptions := some
          { values := none
            match' := some "/^([A-Z][a-z0-9]-)*([A-Z][a-z0-9])+/"
            notMatch := none, schema := none } } }

/-- The `functionOptions.schema` value of rule `hosts-https-only-oas2`
(src/styleguide.js lines 161-169). -/
def hostsHttpsOnlyOas2Schema : Json :=
  jobj
    [("type", Json.str "array"),
     ("items", jobj [("type", Json.str "string"), ("const", Json.str "https")]),
     ("maxItems", Json.num 1)]

/-- Rule `hosts-https-only-oas2` (src/styleguide.js lines 152-172). -/
def hosts_https_only_oas2 : Rule :=
  { description := "ALL requests MUST go through `https` protocol only"
    message := some "Schemes MUST be https and no other value is allowed."
    severity := some "error"
    formats := some [.oas2]
    type' := some "style"
    given := "$.schemes"
    then' := .one
      { field := none
        function := .schema
        functionOptions := some
          { values := none, match' := none, notMatch := none
            schema := some hostsHttpsOnlyOas2Schema } } }

/-- Rule `hosts-https-only-oas3` (src/styleguide.js lines 173-185). -/
def hosts_https_only_oas3 : Rule :=
  { description := "ALL requests MUST go through https:// protocol only"
    message := some "Servers MUST be https and no other protocol is allowed."
    severity := some "error"
    formats := some [.oas3]
    type' := none
    given := "$.servers..url"
    then' := .one
      { field := none
        function := .pattern
        functionOptions := some
          { values := none
            match' := some "/^https:/"
            notMatch := none, schema := none } } }

/-- Rule `request-support-json-oas3` (src/styleguide.js lines 186-195). -/
def request_support_json_oas3 : Rule :=
  { description := "Every request SHOULD support `application/json` media type"
    message := some "\x7b\x7bdescription\x7d\x7d: \x7b\x7berror\x7d\x7d"
    severity := some "warn"
    formats := some [.oas3]
    type' := none
    given := "$.paths.[*].requestBody.content[?(@property.indexOf(\x27json\x27) === -1)]^"
    then' := .one { field := none, function := .falsy, functionOptions := none } }

/-- Rule `no-unknown-error-format` (src/styleguide.js lines 196-211). -/
def no_unknown_error_format : Rule :=
  { description := "Every error response SHOULD support either RFC 7807 (https://tools.ietf.org/html/rfc6648) or the JSON:API Error format."
    message := none
    severity := some "warn"
    formats := some [.oas3]
    type' := none
    given := "$.paths.[*]..responses[?(@property.match(/^(4|5)/))].content.*~"
    then' := .one
      { field := none
        function := .enumeration
        functionOptions := some
          { values := some
              ["application/vnd.api+json",
               "application/problem+xml",
               "application/problem+json"]
            match' := none, notMatch := none, schema := none } } }

/-- Rule `no-global-versioning` (src/styleguide.js lines 212-224). -/
def no_global_versioning : Rule :=
  { description := "Using global versions just forces all your clients to do a lot more work for each upgrade. Please consider using API Evolution instead."
    message := some "Server URL should not contain global versions"
    severity := some "warn"
    formats := some [.oas3]
    type' := none
    given := "$.servers[*].url"
    then' := .one
      { field := none
        function := .pattern
        functionOptions := some
          { values := none, match' := none
            notMatch := some "/v[1-9]", schema := none } } }

/-- The shipped ruleset: the `rules` map of the default export of
`src/styleguide.js`, as an association list in declaration order. -/
def rulesList : List (String × Rule) :=
  [("api-home", api_home),
   ("api-home-get", api_home_get),
   ("api-health", api_health),
   ("api-health-format", api_health_format),
   ("paths-kebab-case", paths_kebab_case),
   ("no-numeric-ids", no_numeric_ids),
   ("no-http-basic", no_http_basic),
   ("no-x-headers", no_x_headers),
   ("no-x-response-headers", no_x_response_headers),
   ("request-GET-no-body-oas3", request_GET_no_body_oas3),
   ("headers-lowercase-case", headers_lowercase_case),
   ("hosts-https-only-oas2", hosts_https_only_oas2),
   ("hosts-https-only-oas3", hosts_https_only_oas3),
   ("request-support-json-oas3", request_support_json_oas3),
   ("no-unknown-error-format", no_unknown_error_format),
   ("no-global-versioning", no_global_versioning)]

/-- Location path element: an object key or an array index. -/
inductive PathKey where
  | key (s : String) : PathKey
  | idx (n : Nat) : PathKey
deriving DecidableEq

/-- Modelled from the spec: selector expressions are parsed into a small
segment-list AST (spec section 9); this development needs the two segment
kinds exercised by the verified scenarios: a named property step and a
recursive-descent property step (`..name`). -/
inductive Seg where
  | prop (name : String) : Seg
  | deepProp (name : String) : Seg

/- Modelled from the spec: recursive descent collecting every property named
`name` at any depth, in document traversal order (depth-first, declaration
order), each match paired with its location path from the root. -/
mutual
def deepScanJ (name : String) (p : List PathKey) : Json → List (List PathKey × Json)
  | .obj fs => deepScanFields name p fs
  | .arr xs => deepScanElems name p 0 xs
  | _ => []
def deepScanFields (name : String) (p : List PathKey) : JsonFields → List (List PathKey × Json)
  | .nil => []
  | .cons k v rest =>
    (if k = name then [(p ++ [PathKey.key k], v)] else []) ++
      deepScanJ name (p ++ [PathKey.key k]) v ++ deepScanFields name p rest
def deepScanElems (name : String) (p : List PathKey) (i : Nat) : JsonList → List (List PathKey × Json)
  | .nil => []
  | .cons x rest =>
    deepScanJ name (p ++ [PathKey.idx i]) x ++ deepScanElems name p (i + 1) rest
end

/-- Modelled from the spec: one selector segment applied to a list of matches. -/
def evalSeg (s : Seg) (ms : List (List PathKey × Json)) : List (List PathKey × Json) :=
  match s with
  | .prop name =>
    ms.flatMap fun m =>
      match getField m.2 name with
      | some v => [(m.1 ++ [PathKey.key name], v)]
      | none => []
  | .deepProp name => ms.flatMap fun m => deepScanJ name m.1 m.2

/-- Modelled from the spec: selector evaluation; the root match is the whole
document at the empty path, and segments are applied left to right.
Non-existent paths yield an empty match sequence, never an error. -/
def evalSelector (segs : List Seg) (doc : Json) : List (List PathKey × Json) :=
  segs.foldl (fun ms s => evalSeg s ms) [([], doc)]

/-- Modelled from the spec: rule-load-time parsing of the selector strings of
the ruleset into segment ASTs, given here as a table for the selectors the
verified scenarios evaluate; a selector outside the table produces no matches
in this model. -/
def compileGiven (g : String) : Option (List Seg) :=
  if g = "$.paths" then some [Seg.prop "paths"]
  else if g = "$.servers..url" then some [Seg.prop "servers", Seg.deepProp "url"]
  else none

/-- Modelled from the spec: rule-load-time compilation of the delimited regex
sources used by `pattern` rules into regex ASTs (anchor stripped, re-applied
by `testAnchored`), given as a table for the patterns the verified claims
exercise. -/
def compilePattern (src : String) : Option Regex :=
  if src = "/^https:/" then some httpsRegex
  else if src = "/^([A-Z][a-z0-9]-)*([A-Z][a-z0-9])+/" then some headersCaseRegex
  else none

/-- Modelled from the spec: the `pattern` function core.  The matched value is
taken as text (non-text values are skipped); a violation arises if a required
`match` regex fails to match or a forbidden `notMatch` regex matches. -/
def patternViolates (m nm : Option Regex) (v : Json) : Bool :=
  match toText v with
  | none => false
  | some s =>
    (match m with
     | some r => !(testAnchored r s)
     | none => false) ||
    (match nm with
     | some r => testAnchored r s
     | none => false)

/-- The compiled `match` regex of a then-clause, when present. -/
def compiledMatch (c : ThenClause) : Option Regex :=
  (c.functionOptions.bind FuncOptions.match').bind compilePattern

/-- The compiled `notMatch` regex of a then-clause, when present. -/
def compiledNotMatch (c : ThenClause) : Option Regex :=
  (c.functionOptions.bind FuncOptions.notMatch).bind compilePattern

/-- The `values` list of a then-clause, defaulting to empty. -/
def valuesOf (c : ThenClause) : List String :=
  (c.functionOptions.bind FuncOptions.values).getD []

/-- The `schema` option of a then-clause, when present. -/
def schemaOptOf (c : ThenClause) : Option Json :=
  c.functionOptions.bind FuncOptions.schema

/-- Modelled from the spec (function registry, spec section 4.2): whether the
configured validation function reports a violation on a present matched value.
`truthy` fires on falsy values, `falsy` on truthy ones, `undefined` on any
present value (absence is handled by the executor's field projection),
`pattern` per `patternViolates`, `enumeration` on a text value outside the
allowed list, and `schema` on a non-conforming value. -/
def violatesFn (c : ThenClause) (v : Json) : Bool :=
  match c.function with
  | .truthy => falsyJson v
  | .falsy => !(falsyJson v)
  | .undefinedFunc => true
  | .pattern => patternViolates (compiledMatch c) (compiledNotMatch c) v
  | .enumeration =>
    match toText v with
    | some s => !((valuesOf c).contains s)
    | none => false
  | .schema =>
    match schemaOptOf c with
    | some sch => schemaFnViolates sch v
    | none => false

/-- Modelled from the spec: message placeholder substitution, replacing every
occurrence of a needle in a character list; structural fuel bounded by the
text length (each step either consumes at least one character of the text or
emits one). -/
def replaceAllF (needle repl : List Char) : Nat → List Char → List Char
  | 0, s => s
  | _ + 1, [] => []
  | fuel + 1, c :: cs =>
    if needle.isPrefixOf (c :: cs) then
      repl ++ replaceAllF needle repl fuel ((c :: cs).drop needle.length)
    else c :: replaceAllF needle repl fuel cs

/-- Replace every occurrence of `needle` in `s` by `repl`. -/
def replaceAll (needle repl s : List Char) : List Char :=
  replaceAllF needle repl s.length s

/-- Modelled from the spec: message template interpolation.  The placeholders
the shipped ruleset uses are `(doubled braces around) property` and
`description`; `error` (an underlying function's error text) is outside this
model and left unresolved. -/
def render (tmpl desc prop : String) : String :=
  String.mk
    (replaceAll "\x7b\x7bdescription\x7d\x7d".data desc.data
      (replaceAll "\x7b\x7bproperty\x7d\x7d".data prop.data tmpl.data))

/-- The matched property name of a location path: its last key. -/
def lastProp (p : List PathKey) : String :=
  match p.getLast? with
  | some (.key s) => s
  | some (.idx n) => toString n
  | none => ""

/-- A violation record: rule identifier, location path, rendered message and
severity. -/
structure Violation where
  code : String
  path : List PathKey
  message : String
  severity : String
deriving DecidableEq

/-- Modelled from the spec (rule applicability filter, spec section 4.3): a
rule with no declared formats applies to every document; a rule with declared
formats applies only if the document declares at least one matching tag. -/
def applies (r : Rule) (docFormats : List Format) : Bool :=
  match r.formats with
  | none => true
  | some fs => fs.any (fun f => docFormats.contains f)

/-- Modelled from the spec (rule executor, spec section 4.4, steps 2-4): apply
one then-clause to one match.  When the clause targets a `field`, the match is
projected to it; a present projected value is validated at the match path
extended by the field, an absent field is a violation only for the
existence-checking `truthy` function (reported at the match path, per the
spec's scenario) and is otherwise skipped silently.  The rule's severity
applies (defaulting to `warn` when undeclared) and the message template (the
description when no template is declared) is interpolated. -/
def runThen (id : String) (r : Rule) (c : ThenClause) (m : List PathKey × Json) :
    List Violation :=
  let sev := r.severity.getD "warn"
  let tmpl := r.message.getD r.description
  match c.field with
  | some f =>
    match getField m.2 f with
    | some v =>
      if violatesFn c v then
        [⟨id, m.1 ++ [PathKey.key f], render tmpl r.description f, sev⟩]
      else []
    | none =>
      if c.function = FuncName.truthy then
        [⟨id, m.1, render tmpl r.description f, sev⟩]
      else []
  | none =>
    if violatesFn c m.2 then
      [⟨id, m.1, render tmpl r.description (lastProp m.1), sev⟩]
    else []

/-- The then-clauses of a rule as a list. -/
def thenClauses (r : Rule) : List ThenClause :=
  match r.then' with
  | .one c => [c]
  | .many cs => cs

/-- Modelled from the spec (rule executor): run one rule against a document.
An inapplicable rule, a rule disabled via severity `off`, or a selector
outside the model's parse table contributes nothing; otherwise every selector
match is checked by every configured then-clause. -/
def runRule (id : String) (r : Rule) (doc : Json) (docFormats : List Format) :
    List Violation :=
  if applies r docFormats then
    if r.severity = some "off" then []
    else
      match compileGiven r.given with
      | none => []
      | some segs =>
        (evalSelector segs doc).flatMap fun m =>
          (thenClauses r).flatMap fun c => runThen id r c m
  else []

/-- Order-embedding of a path element: keys sort before indices, keys by
string order, indices numerically. -/
def encKey : PathKey → Lex (Sum String Nat)
  | .key s => toLex (Sum.inl s)
  | .idx n => toLex (Sum.inr n)

instance : LinearOrder PathKey :=
  LinearOrder.lift' encKey
    (by intro a b h; cases a <;> cases b <;> simp [encKey, toLex] at h <;> simp [h])

/-- Order-embedding of a violation into lexicographic products: by location
path first, then rule identifier, then message, then severity.  The spec's
sort key is (location path, rule identifier); the remaining components only
break ties so that the order is total, which the spec's determinism
requirement demands of the final sort. -/
def encVio (v : Violation) : Lex ((List PathKey) × Lex (String × Lex (String × String))) :=
  toLex (v.path, toLex (v.code, toLex (v.message, v.severity)))

instance : LinearOrder Violation :=
  LinearOrder.lift' encVio
    (by
      intro a b h
      cases a; cases b
      simp [encVio, toLex, Prod.ext_iff] at h
      simp [h.1, h.2.1, h.2.2.1, h.2.2.2])

/-- The sorting relation of the diagnostic aggregator (the linear order above). -/
def vr : Violation → Violation → Prop := fun a b => a ≤ b

instance : DecidableRel vr := fun a b => inferInstanceAs (Decidable (a ≤ b))

instance : IsTotal Violation vr := ⟨fun a b => le_total a b⟩

instance : IsTrans Violation vr := ⟨fun _ _ _ h1 h2 => le_trans h1 h2⟩

instance : IsAntisymm Violation vr := ⟨fun _ _ h1 h2 => le_antisymm h1 h2⟩

/-- Modelled from the spec (diagnostic aggregator, spec section 4.5): the
final stable sort of the report. -/
def sortV (vs : List Violation) : List Violation :=
  List.insertionSort vr vs

/-- Deduplication identity: exact (rule identifier, location, message) triple
equality (spec section 4.5). -/
def tripleEq (a b : Violation) : Bool :=
  decide (a.code = b.code) && decide (a.path = b.path) && decide (a.message = b.message)

/-- Collapse adjacent runs of triple-equal violations, keeping the first of
each run; on a sorted list this removes exactly the duplicate triples, since
the sort key starts with the dedup triple. -/
def dedupFrom (a : Violation) : List Violation → List Violation
  | [] => [a]
  | b :: rest => if tripleEq a b then dedupFrom a rest else a :: dedupFrom b rest

/-- Adjacent deduplication of a violation list. -/
def dedupAdj : List Violation → List Violation
  | [] => []
  | a :: rest => dedupFrom a rest

/-- Modelled from the spec (diagnostic aggregator): sort, then deduplicate
exact (location, rule identifier, message) triples. -/
def aggregateV (vs : List Violation) : List Violation :=
  dedupAdj (sortV vs)

/-- The final report: the aggregated ordered violations plus counts per
severity. -/
structure Report where
  violations : List Violation
  errors : Nat
  warns : Nat
  infos : Nat
  hints : Nat
deriving DecidableEq

/-- Build the report from an aggregated violation list. -/
def mkReport (vs : List Violation) : Report :=
  ⟨vs,
   vs.countP (fun v => v.severity == "error"),
   vs.countP (fun v => v.severity == "warn"),
   vs.countP (fun v => v.severity == "info"),
   vs.countP (fun v => v.severity == "hint")⟩

/-- Modelled from the spec (external interface, spec section 6): evaluate the
ruleset against the document — every rule runs, the per-rule violation lists
are concatenated in ruleset order and handed to the aggregator.  The
document's declared format tags are supplied by the caller. -/
def lint (doc : Json) (docFormats : List Format) (rules : List (String × Rule)) : Report :=
  mkReport (aggregateV (rules.flatMap fun p => runRule p.1 p.2 doc docFormats))

/-- Scenario document of spec section 8: `\x7bpaths: \x7b\x7d\x7d`. -/
def docPathsEmpty : Json := jobj [("paths", jobj [])]

/-- Scenario document of spec section 8: a single server entry with a plain
http URL. -/
def docHttp : Json :=
  jobj [("servers", jarr [jobj [("url", Json.str "http://api.example.com/v2")]])]

/-- The same document with the URL changed to https. -/
def docHttps : Json :=
  jobj [("servers", jarr [jobj [("url", Json.str "https://api.example.com/v2")]])]

/-- C1 is false as stated: rule `api-home` of the shipped ruleset has severity
`"warn"`, which is not a member of the claimed closed enumeration
`error | warning | info | hint | off`; moreover rule `no-x-headers` declares
no severity at all. -/
theorem c1_counterexample :
    rulesList.lookup "api-home" = some api_home ∧
    api_home.severity = some "warn" ∧
    (["error", "warning", "info", "hint", "off"].contains "warn") = false ∧
    rulesList.lookup "no-x-headers" = some no_x_headers ∧
    no_x_headers.severity = none :=
  ⟨rfl, rfl, rfl, rfl, rfl⟩

/-- C1 amended: every rule of the shipped ruleset that declares a severity
draws it from the enumeration `error | warn | info | hint | off` (the member
is spelled `warn`, not `warning`); two rules omit the severity field. -/
theorem c1_amended_enum :
    rulesList.all (fun p =>
      match p.2.severity with
      | none => true
      | some s => ["error", "warn", "info", "hint", "off"].contains s) = true := by
  rfl

/-- C2: the match pattern of `headers-lowercase-case` has no end anchor, so
the string "Ab-Cd!" — which merely contains the valid Hyphenated-Pascal-Case
prefix "Ab-Cd" and then continues with a character the casing forbids (the
whole string is not accepted by the fully anchored pattern) — still passes the
pattern test, and the rule's pattern function reports no violation for it. -/
theorem c2_headers_pattern_unanchored :
    thenClauses headers_lowercase_case =
      [⟨none, FuncName.pattern,
        some ⟨none, some "/^([A-Z][a-z0-9]-)*([A-Z][a-z0-9])+/", none, none⟩⟩] ∧
    compilePattern "/^([A-Z][a-z0-9]-)*([A-Z][a-z0-9])+/" = some headersCaseRegex ∧
    fullAcceptsStr headersCaseRegex "Ab-Cd" = true ∧
    fullAcceptsStr headersCaseRegex "Ab-Cd!" = false ∧
    testAnchored headersCaseRegex "Ab-Cd!" = true ∧
    violatesFn
      ⟨none, FuncName.pattern,
        some ⟨none, some "/^([A-Z][a-z0-9]-)*([A-Z][a-z0-9])+/", none, none⟩⟩
      (Json.str "Ab-Cd!") = false :=
  ⟨rfl, rfl, rfl, rfl, rfl, rfl⟩

/-- C3 is false as stated: rules `no-numeric-ids` and `request-GET-no-body-oas3`
of the shipped ruleset (and also `no-unknown-error-format`) carry no `message`
field. -/
theorem c3_counterexample :
    rulesList.lookup "no-numeric-ids" = some no_numeric_ids ∧
    no_numeric_ids.message = none ∧
    rulesList.lookup "request-GET-no-body-oas3" = some request_GET_no_body_oas3 ∧
    request_GET_no_body_oas3.message = none :=
  ⟨rfl, rfl, rfl, rfl⟩

/-- C3 amended: every rule of the shipped ruleset carries a message template
except exactly `no-numeric-ids`, `request-GET-no-body-oas3` and
`no-unknown-error-format`, which omit it. -/
theorem c3_amended_message :
    rulesList.all (fun p =>
      if p.1 = "no-numeric-ids" || p.1 = "request-GET-no-body-oas3" ||
          p.1 = "no-unknown-error-format"
      then p.2.message = none
      else p.2.message.isSome) = true := by
  rfl

/-- C4: the `hosts-https-only-oas3` rule, evaluated against a document whose
single server URL is `http://api.example.com/v2`, yields exactly one
error-severity violation located at that server entry's url; against the same
document with an https URL it yields zero violations; and the rule's `^https:`
match pattern rejects the http URL and accepts the https one. -/
theorem c4_hosts_https_scenario :
    lint docHttp [Format.oas3] [("hosts-https-only-oas3", hosts_https_only_oas3)] =
      ⟨[⟨"hosts-https-only-oas3",
         [PathKey.key "servers", PathKey.idx 0, PathKey.key "url"],
         "Servers MUST be https and no other protocol is allowed.", "error"⟩],
       1, 0, 0, 0⟩ ∧
    lint docHttps [Format.oas3] [("hosts-https-only-oas3", hosts_https_only_oas3)] =
      ⟨[], 0, 0, 0, 0⟩ ∧
    hosts_https_only_oas3.severity = some "error" ∧
    testAnchored httpsRegex "http://api.example.com/v2" = false ∧
    testAnchored httpsRegex "https://api.example.com/v2" = true :=
  ⟨rfl, rfl, rfl, rfl, rfl⟩

/-- C5: the `api-home` rule (selector `$.paths`, field `/`, function `truthy`,
severity `warn`) evaluated against the document with an empty `paths` object
yields a report with exactly one warn-severity violation located at `paths`. -/
theorem c5_api_home_scenario :
    lint docPathsEmpty [] [("api-home", api_home)] =
      ⟨[⟨"api-home", [PathKey.key "paths"],
         "Stop forcing all API consumers to visit documentation for basic interactions when the API could do that itself.",
         "warn"⟩],
       0, 1, 0, 0⟩ :=
  rfl

/-- C6: the schema function configured with the `no-numeric-ids` schema flags
the value with `type: "integer"` and passes the value with `type: "string",
format: "uuid"`. -/
theorem c6_schema_function :
    thenClauses no_numeric_ids =
      [⟨none, FuncName.schema, some ⟨none, none, none, some noNumericIdsSchema⟩⟩] ∧
    schemaFnViolates noNumericIdsSchema (jobj [("type", Json.str "integer")]) = true ∧
    schemaFnViolates noNumericIdsSchema
      (jobj [("type", Json.str "string"), ("format", Json.str "uuid")]) = false :=
  ⟨rfl, rfl, rfl⟩

/-- C10: every rule of the shipped ruleset has a single then-clause (never an
ordered sequence of clauses), and that clause's validation function is one of
the six imported functions. -/
theorem c10_single_then :
    rulesList.all (fun p =>
      match p.2.then' with
      | .one c =>
        [FuncName.truthy, FuncName.falsy, FuncName.undefinedFunc,
         FuncName.pattern, FuncName.enumeration, FuncName.schema].contains c.function
      | .many _ => false) = true := by
  rfl

/-- C7: a rule of the shipped ruleset with no declared formats applies to
every document, and a rule with a declared formats list applies exactly when
the document declares at least one matching format tag. -/
theorem c7_applies :
    ∀ p ∈ rulesList, ∀ D : List Format,
      (p.2.formats = none → applies p.2 D = true) ∧
      (∀ fs, p.2.formats = some fs →
        (applies p.2 D = true ↔ ∃ f, f ∈ fs ∧ f ∈ D)) := by
  intro p _ D
  constructor
  · intro h
    simp [applies, h]
  · intro fs h
    simp [applies, h, List.any_eq_true]

/-- Witness for C7: instantiated at the format-free rule `api-home` with an
empty format-tag list, and at `request-GET-no-body-oas3` (formats `[oas3]`)
with a document declaring `oas3`. -/
theorem c7_applies_witness :
    applies api_home [] = true ∧
    (applies request_GET_no_body_oas3 [Format.oas3] = true ↔
      ∃ f, f ∈ [Format.oas3] ∧ f ∈ [Format.oas3]) := by
  constructor
  · exact (c7_applies ("api-home", api_home) (List.Mem.head _) []).1 rfl
  · exact (c7_applies ("request-GET-no-body-oas3", request_GET_no_body_oas3)
      (List.Mem.tail _ (List.Mem.tail _ (List.Mem.tail _ (List.Mem.tail _
        (List.Mem.tail _ (List.Mem.tail _ (List.Mem.tail _ (List.Mem.tail _
          (List.Mem.tail _ (List.Mem.head _)))))))))) [Format.oas3]).2 [Format.oas3] rfl

/-- The boolean dedup identity agrees with propositional equality of the
(rule identifier, location, message) triple. -/
theorem tripleEq_true_iff (a b : Violation) :
    tripleEq a b = true ↔ a.code = b.code ∧ a.path = b.path ∧ a.message = b.message := by
  simp [tripleEq, and_assoc]

/-- C8: two independently produced violations collapse to a single aggregated
entry exactly when their rule identifier, location and rendered message all
coincide; when any of the three differs, both entries are kept. -/
theorem c8_dedup_iff :
    ∀ v1 v2 : Violation,
      ((aggregateV [v1, v2]).length = 1 ↔
        (v1.code = v2.code ∧ v1.path = v2.path ∧ v1.message = v2.message)) ∧
      ((aggregateV [v1, v2]).length = 2 ↔
        ¬(v1.code = v2.code ∧ v1.path = v2.path ∧ v1.message = v2.message)) := by
  intro v1 v2
  by_cases htp : v1.code = v2.code ∧ v1.path = v2.path ∧ v1.message = v2.message
  · have h12 : tripleEq v1 v2 = true := (tripleEq_true_iff v1 v2).2 htp
    have h21 : tripleEq v2 v1 = true :=
      (tripleEq_true_iff v2 v1).2 ⟨htp.1.symm, htp.2.1.symm, htp.2.2.symm⟩
    by_cases hv : vr v1 v2 <;>
      simp [aggregateV, sortV, List.insertionSort, List.orderedInsert, hv,
        dedupAdj, dedupFrom, h12, h21, htp]
  · have h12 : tripleEq v1 v2 = false := by
      rw [← Bool.not_eq_true, tripleEq_true_iff]; exact htp
    have h21 : tripleEq v2 v1 = false := by
      rw [← Bool.not_eq_true, tripleEq_true_iff]
      intro hc
      exact htp ⟨hc.1.symm, hc.2.1.symm, hc.2.2.symm⟩
    by_cases hv : vr v1 v2 <;>
      simp [aggregateV, sortV, List.insertionSort, List.orderedInsert, hv,
        dedupAdj, dedupFrom, h12, h21, htp]

/-- C9: lint is deterministic — as a pure function it returns identical
reports on identical inputs, and the report is invariant under permuting the
order in which the rules are evaluated, because the aggregator's final sort is
by a total order and deduplication acts on the sorted list. -/
theorem c9_lint_deterministic :
    ∀ (doc : Json) (fmts : List Format) (rs1 rs2 : List (String × Rule)),
      lint doc fmts rs1 = lint doc fmts rs1 ∧
      (rs1.Perm rs2 → lint doc fmts rs1 = lint doc fmts rs2) := by
  intro doc fmts rs1 rs2
  refine ⟨rfl, fun hp => ?_⟩
  have hv : (rs1.flatMap fun p => runRule p.1 p.2 doc fmts).Perm
      (rs2.flatMap fun p => runRule p.1 p.2 doc fmts) := hp.flatMap_right _
  have hs : sortV (rs1.flatMap fun p => runRule p.1 p.2 doc fmts) =
      sortV (rs2.flatMap fun p => runRule p.1 p.2 doc fmts) :=
    List.eq_of_perm_of_sorted
      (((List.perm_insertionSort vr _).trans hv).trans
        (List.perm_insertionSort vr _).symm)
      (List.sorted_insertionSort vr _) (List.sorted_insertionSort vr _)
  simp only [lint, aggregateV, hs]

/-- Witness for C9: two two-rule rulesets that are swaps of one another
produce the same report on a concrete document. -/
theorem c9_lint_deterministic_witness :
    lint (jobj []) [] [("api-home", api_home), ("api-health", api_health)] =
      lint (jobj []) [] [("api-health", api_health), ("api-home", api_home)] :=
  (c9_lint_deterministic (jobj []) [] _ _).2 (List.Perm.swap _ _ _)
